import Mathlib

set_option allowUnsafeReducibility true
attribute [semireducible] Rat.sub Rat.add Rat.mul Rat.div Rat.inv Rat.neg

/-!
Shallow embedding of `src/Profiling/python/Profiling/PlotRunProfile.py`
(astrorama/SourceXtractorTools).

Times and numeric sampler values are modelled as exact rationals (`Rat`);
Python exceptions are modelled with `Except PyError`.  Python `dict`s with
insertion order are modelled as association lists.  External library calls
(dateutil timestamp parsing, `mktime`, matplotlib rendering) are modelled by
restricted pure functions, each marked in its doc comment.
-/

/-- Python exception kinds relevant to this program. -/
inductive PyError where
  | valueError
  | indexError
  | nameError
  | keyError
  | typeError
deriving DecidableEq, Repr

/-- Characters Python's `str.split()` (no separator) treats as whitespace. -/
def pyIsSpace (c : Char) : Bool :=
  c = ' ' || c = '\t' || c = '\n' || c = '\r' || c = '\x0b' || c = '\x0c'

/-- Drop leading Python whitespace from a character list. -/
def dropWs : List Char → List Char
  | [] => []
  | c :: cs => if pyIsSpace c then dropWs cs else c :: cs

/-- State machine for Python's `str.split(maxsplit=n)`: `n` is the number of
splits still allowed, `acc` the current token (reversed).  Once no splits are
left, the remainder of the string (leading whitespace dropped) is returned as
one final chunk, keeping its internal and trailing whitespace. -/
def splitMaxGo : Nat → List Char → List Char → List (List Char)
  | _, [], acc => if acc = [] then [] else [acc.reverse]
  | n, c :: cs, acc =>
    if acc = [] then
      if pyIsSpace c then splitMaxGo n cs []
      else if n = 0 then [c :: cs]
      else splitMaxGo n cs [c]
    else
      if pyIsSpace c then acc.reverse :: splitMaxGo (n - 1) cs []
      else splitMaxGo n cs (c :: acc)

/-- Python `line.split(maxsplit=4)`. -/
def pySplitMax4 (s : String) : List String :=
  (splitMaxGo 4 s.data []).map String.mk

/-- State machine for Python's `str.split()` with no separator and no limit. -/
def splitAllGo : List Char → List Char → List (List Char)
  | [], acc => if acc = [] then [] else [acc.reverse]
  | c :: cs, acc =>
    if pyIsSpace c then
      if acc = [] then splitAllGo cs [] else acc.reverse :: splitAllGo cs []
    else splitAllGo cs (c :: acc)

/-- Python `s.split()` (split on whitespace runs, no empty fields). -/
def pySplit (s : String) : List String :=
  (splitAllGo s.data []).map String.mk

/-- State machine for Python's `str.split(sep)` with a one-character
separator: empty fields are kept. -/
def splitOnGo (sep : Char) : List Char → List Char → List (List Char)
  | [], acc => [acc.reverse]
  | c :: cs, acc =>
    if c = sep then acc.reverse :: splitOnGo sep cs []
    else splitOnGo sep cs (c :: acc)

/-- Python `s.split(sep)` for a single-character separator. -/
def pySplitOn (sep : Char) (s : String) : List String :=
  (splitOnGo sep s.data []).map String.mk

/-- Python `s.strip()`. -/
def pyStrip (s : String) : String :=
  String.mk ((dropWs (dropWs s.data).reverse).reverse)

/-- Python `s.startswith(p)`. -/
def pyStartsWith (s p : String) : Bool :=
  p.data.isPrefixOf s.data

/-- Read a nonempty run of decimal digits as a natural number. -/
def digitsToNatGo : List Char → Nat → Option Nat
  | [], acc => some acc
  | c :: cs, acc =>
    if c.isDigit then digitsToNatGo cs (acc * 10 + (c.toNat - '0'.toNat))
    else none

/-- All-digit, nonempty character list to a natural number. -/
def digitsToNat : List Char → Option Nat
  | [] => none
  | c :: cs => digitsToNatGo (c :: cs) 0

/-- Python `int(s)`: strips whitespace, then an optional sign followed by a
nonempty digit run (underscore digit grouping is not modelled; the profiled
logs never use it).  `none` models the `ValueError` raised otherwise. -/
def pyParseInt (s : String) : Option Int :=
  match (pyStrip s).data with
  | '-' :: rest => (digitsToNat rest).map fun n => -(n : Int)
  | '+' :: rest => (digitsToNat rest).map fun n => (n : Int)
  | cs => (digitsToNat cs).map fun n => (n : Int)

/-- Model of the `dateutil` timestamp parser used by `_parse_sourcex_logs`,
restricted to the `HH:MM:SS` time-of-day form the SourceXtractor log emits;
any other string is treated as unparseable (`ValueError`, i.e. `none`).
The result is the time of day in seconds. -/
def parseTimestamp (s : String) : Option Rat :=
  match pySplitOn ':' s with
  | [h, m, sec] =>
    match digitsToNat h.data, digitsToNat m.data, digitsToNat sec.data with
    | some hh, some mm, some ss => some ((hh * 3600 + mm * 60 + ss : Nat) : Rat)
    | _, _, _ => none
  | _ => none

/-- One accepted log line: the first four whitespace-separated fields and the
stripped free-text message, as built by `_parse_sourcex_logs`. -/
structure LogEntry where
  timestamp : Rat
  logger : String
  level : String
  message : String
deriving DecidableEq, Repr

/-- Body of the `try` block of `_parse_sourcex_logs` for one line:
`timestamp, who, level, _, message = line.split(maxsplit=4)` followed by
timestamp parsing and `message.strip()`.  `none` models the caught
`ValueError` (fewer than 5 fields, or unparseable timestamp). -/
def parseLogLine (line : String) : Option LogEntry :=
  match pySplitMax4 line with
  | [ts, who, lvl, _, message] =>
    match parseTimestamp ts with
    | some t => some ⟨t, who, lvl, pyStrip message⟩
    | none => none
  | _ => none

/-- The line loop of `_parse_sourcex_logs`: each line is parsed inside
`try`, and a `ValueError` is logged as a warning and the line skipped. -/
def parseLines : List String → List LogEntry
  | [] => []
  | l :: ls =>
    match parseLogLine l with
    | some e => e :: parseLines ls
    | none => parseLines ls

/-- `_parse_sourcex_logs`, lines 33-56: parse all lines, then take
`log['timestamp'][0]` (an uncaught `IndexError` when no line parsed) and
produce the messages paired with elapsed seconds since the first entry
(the `zip(parsed['message'], parsed['Time'])` consumed by the caller). -/
def _parse_sourcex_logs (lines : List String) : Except PyError (List (String × Rat)) :=
  match parseLines lines with
  | [] => .error .indexError
  | e :: es => .ok ((e :: es).map fun x => (x.message, x.timestamp - e.timestamp))

/-- The `data` dictionary built by `read_sourcex_logs`.  `thread_count` and
`tile_memory_limit` are `none` while the corresponding dictionary key is
absent; intervals are `(start, end)` pairs of optional elapsed times;
the four series are `(time, count)` lists. -/
structure SourceXData where
  thread_count : Option Int := none
  tile_memory_limit : Option Int := none
  background : List Rat := []
  segmentation : Option Rat × Option Rat := (none, none)
  deblending : Option Rat × Option Rat := (none, none)
  measurement : Option Rat × Option Rat := (none, none)
  duration : Option Rat := none
  segmented : List (Rat × Int) := []
  detected : List (Rat × Int) := []
  deblended : List (Rat × Int) := []
  measured : List (Rat × Int) := []
deriving DecidableEq, Repr

/-- Loop state of `read_sourcex_logs`: the `data` dictionary plus the local
variables `first`, `deblending_max`, `measured_max`, `segmented_max`, and the
Python local `count`, which leaks between loop iterations (`none` models it
being unbound, a `NameError` when read). -/
structure LoopState where
  data : SourceXData := {}
  first : Option Rat := none
  deblending_max : Int := 0
  measured_max : Int := 0
  segmented_max : Int := 0
  count : Option Int := none
deriving DecidableEq, Repr

/-- Branch of the message loop for `thread-count =` (lines 82-83):
`data['thread-count'] = int(m.split('=')[1].strip())`. -/
def stepThreadCount (m : String) (st : LoopState) : Except PyError LoopState :=
  match (pySplitOn '=' m)[1]? with
  | none => .error .indexError
  | some piece =>
    match pyParseInt (pyStrip piece) with
    | none => .error .valueError
    | some n => .ok { st with data := { st.data with thread_count := some n } }

/-- Branch of the message loop for `tile-memory-limit =` (lines 85-86). -/
def stepTileMemoryLimit (m : String) (st : LoopState) : Except PyError LoopState :=
  match (pySplitOn '=' m)[1]? with
  | none => .error .indexError
  | some piece =>
    match pyParseInt (pyStrip piece) with
    | none => .error .valueError
    | some n => .ok { st with data := { st.data with tile_memory_limit := some n } }

/-- Branch of the message loop for `Background for image` (lines 88-89). -/
def stepBackground (t : Rat) (st : LoopState) : LoopState :=
  { st with data := { st.data with background := st.data.background ++ [t] } }

/-- Effect of one `Segmentation <line> of <total> ...` report with a parsed
line count (lines 93-102): record the start on the first positive report,
advance the end on a new high-watermark, always append to the series. -/
def segmentationUpdate (line : Int) (t : Rat) (st : LoopState) : LoopState :=
  let st1 :=
    if line > 0 ∧ st.data.segmentation.1 = none then
      { st with data := { st.data with segmentation := (some t, st.data.segmentation.2) } }
    else if line > st.segmented_max then
      { st with
        data := { st.data with segmentation := (st.data.segmentation.1, some t) }
        segmented_max := line }
    else st
  { st1 with data := { st1.data with segmented := st1.data.segmented ++ [(t, line)] } }

/-- Branch of the message loop for `Segmentation` (lines 91-102):
`_, line, _, total, _ = m.split()` requires exactly 5 message tokens. -/
def stepSegmentation (m : String) (t : Rat) (st : LoopState) : Except PyError LoopState :=
  match pySplit m with
  | [_, lineStr, _, _, _] =>
    match pyParseInt lineStr with
    | none => .error .valueError
    | some line => .ok (segmentationUpdate line t st)
  | _ => .error .valueError

/-- Branch of the message loop for `Detected` (lines 104-107). -/
def stepDetected (m : String) (t : Rat) (st : LoopState) : Except PyError LoopState :=
  match (pySplit m)[1]? with
  | none => .error .indexError
  | some cs =>
    match pyParseInt cs with
    | none => .error .valueError
    | some c =>
      .ok { st with
            count := some c
            data := { st.data with detected := st.data.detected ++ [(t, c)] } }

/-- Effect of one `Measured N ...` report with more than two tokens and a
parsed count (lines 113-121). -/
def measurementUpdate (c : Int) (t : Rat) (st : LoopState) : LoopState :=
  let st1 := { st with count := some c }
  let st2 :=
    if st1.data.measurement.1 = none then
      { st1 with data := { st1.data with measurement := (some t, st1.data.measurement.2) } }
    else st1
  let st3 :=
    if c > st2.measured_max then
      { st2 with
        data := { st2.data with measurement := (st2.data.measurement.1, some t) }
        measured_max := c }
    else st2
  { st3 with data := { st3.data with measured := st3.data.measured ++ [(t, c)] } }

/-- Branch of the message loop for `Measured` (lines 109-121): with at most
two tokens the appended `count` is the leaked Python local from a previous
iteration (a `NameError` when it was never bound). -/
def stepMeasured (m : String) (t : Rat) (st : LoopState) : Except PyError LoopState :=
  if (pySplit m).length > 2 then
    match (pySplit m)[1]? with
    | none => .error .indexError
    | some cs =>
      match pyParseInt cs with
      | none => .error .valueError
      | some c => .ok (measurementUpdate c t st)
  else
    match st.count with
    | none => .error .nameError
    | some c =>
      .ok { st with data := { st.data with measured := st.data.measured ++ [(t, c)] } }

/-- Effect of one `Deblended N` report with a parsed count (lines 126-134):
on a strict increase, record the start on the very first increase and always
advance the end; always append to the series. -/
def deblendingUpdate (c : Int) (t : Rat) (st : LoopState) : LoopState :=
  let st0 := { st with count := some c }
  let st1 :=
    if c > st0.deblending_max then
      let sta :=
        if st0.deblending_max = (0 : Int) then
          { st0 with data := { st0.data with deblending := (some t, st0.data.deblending.2) } }
        else st0
      { sta with
        data := { sta.data with deblending := (sta.data.deblending.1, some t) }
        deblending_max := c }
    else st0
  { st1 with data := { st1.data with deblended := st1.data.deblended ++ [(t, c)] } }

/-- Branch of the message loop for `Deblended` (lines 123-134):
`_, count = m.split()` requires exactly 2 message tokens. -/
def stepDeblended (m : String) (t : Rat) (st : LoopState) : Except PyError LoopState :=
  match pySplit m with
  | [_, cs] =>
    match pyParseInt cs with
    | none => .error .valueError
    | some c => .ok (deblendingUpdate c t st)
  | _ => .error .valueError

/-- Final `else` of the message loop (lines 135-138): the first unmatched
message records `first`, later ones update the running `duration`. -/
def stepOther (t : Rat) (st : LoopState) : LoopState :=
  match st.first with
  | none => { st with first := some t }
  | some f => { st with data := { st.data with duration := some (t - f) } }

/-- One iteration of the message loop of `read_sourcex_logs` (lines 80-138)
on message `m` at elapsed time `t`: the `if`/`elif` prefix dispatch. -/
def step (m : String) (t : Rat) (st : LoopState) : Except PyError LoopState :=
  if pyStartsWith m "thread-count =" then stepThreadCount m st
  else if pyStartsWith m "tile-memory-limit =" then stepTileMemoryLimit m st
  else if pyStartsWith m "Background for image" then .ok (stepBackground t st)
  else if pyStartsWith m "Segmentation" then stepSegmentation m t st
  else if pyStartsWith m "Detected" then stepDetected m t st
  else if pyStartsWith m "Measured" then stepMeasured m t st
  else if pyStartsWith m "Deblended" then stepDeblended m t st
  else .ok (stepOther t st)

/-- The whole message loop of `read_sourcex_logs`; the function has no
`try`, so the first exception aborts the call. -/
def runLoop : List (String × Rat) → LoopState → Except PyError LoopState
  | [], st => .ok st
  | (m, t) :: rest, st =>
    match step m t st with
    | .ok st' => runLoop rest st'
    | .error e => .error e

/-- Python truthiness test `not data['segmentation'][1]` on an optional
elapsed time: true for a missing value (`None`) and for `0.0`. -/
def segEndFalsy : Option Rat → Bool
  | none => true
  | some x => x = 0

/-- Post-pass of `read_sourcex_logs` (lines 139-141): when the segmentation
end is falsy, default it to the deblending end. -/
def postPass (d : SourceXData) : SourceXData :=
  if segEndFalsy d.segmentation.2 then
    { d with segmentation := (d.segmentation.1, d.deblending.2) }
  else d

/-- `read_sourcex_logs`, lines 59-142. -/
def read_sourcex_logs (lines : List String) : Except PyError SourceXData :=
  match _parse_sourcex_logs lines with
  | .error e => .error e
  | .ok parsed =>
    match runLoop parsed {} with
    | .error e => .error e
    | .ok st => .ok (postPass st.data)

deriving instance DecidableEq for Except

/-- Two strings neither of which is a prefix of the other cannot both be
prefixes of the same message (branch exclusivity of the `elif` chain). -/
theorem startsWith_excl_false {m p q : String} (hp : pyStartsWith m p = true)
    (h1 : ¬ p.data <+: q.data) (h2 : ¬ q.data <+: p.data) :
    pyStartsWith m q = false := by
  cases hq : pyStartsWith m q with
  | false => rfl
  | true =>
    exfalso
    unfold pyStartsWith at hp hq
    rw [List.isPrefixOf_iff_prefix] at hp hq
    rcases List.prefix_or_prefix_of_prefix hq hp with h | h
    · exact h2 h
    · exact h1 h

/-- C8: for the two-line log `00:00:00 L INFO t thread-count = 4` and
`00:00:01 L INFO t Segmentation 5 of 10 done`, `read_sourcex_logs` yields a
thread count of 4 and a segmentation start of 1.0 seconds. -/
theorem c8_thread_count_and_segmentation_start :
    (read_sourcex_logs ["00:00:00 L INFO t thread-count = 4",
        "00:00:01 L INFO t Segmentation 5 of 10 done"]).map
      (fun d => (d.thread_count, d.segmentation.1)) = .ok (some 4, some 1) := by
  decide

/-- C6: for a log containing `Deblended 3`, then `Deblended 7`, then
`Deblended 7`, the deblending end is the elapsed time of the second line
only: a repeated report with count equal to the running maximum does not
move the end.  Stated for arbitrary elapsed times of the three lines, and
for the concrete three-line log through the full reader. -/
theorem c6_duplicate_deblended_does_not_move_end (t1 t2 t3 : Rat) :
    (runLoop [("Deblended 3", t1), ("Deblended 7", t2), ("Deblended 7", t3)] {}).map
        (fun st => st.data.deblending.2) = .ok (some t2)
    ∧ (read_sourcex_logs ["00:00:00 A I t Deblended 3", "00:00:01 A I t Deblended 7",
        "00:00:02 A I t Deblended 7"]).map (fun d => d.deblending.2) = .ok (some 1) :=
  ⟨rfl, by decide⟩

/-- C1 counterexample: a line whose message starts with `Segmentation` but
whose message body does not split into exactly 5 tokens makes
`read_sourcex_logs` raise an uncaught `ValueError` (the tuple unpacking
`_, line, _, total, _ = m.split()` fails), contradicting the claim that any
recognized message form is processed without an uncaught error. -/
theorem c1_cex_recognized_message_raises :
    read_sourcex_logs ["00:00:00 A INFO t Segmentation"] = .error .valueError := by
  decide

/-- C1 (amended): a line that does not split into at least 5
whitespace-separated tokens is skipped with a warning by the low-level
parser and processing continues with the same result. -/
theorem c1_malformed_line_skipped (l : String) (lines : List String)
    (h : (pySplitMax4 l).length < 5) :
    parseLogLine l = none ∧ parseLines (l :: lines) = parseLines lines ∧
      _parse_sourcex_logs (l :: lines) = _parse_sourcex_logs lines := by
  have hnone : parseLogLine l = none := by
    unfold parseLogLine
    split
    · rename_i ts who lvl x message heq
      rw [heq] at h
      simp at h
    · rfl
  have h2 : parseLines (l :: lines) = parseLines lines := by
    simp [parseLines, hnone]
  refine ⟨hnone, h2, ?_⟩
  unfold _parse_sourcex_logs
  rw [h2]

/-- Witness for the amended C1 theorem at a concrete malformed line. -/
theorem c1_malformed_line_skipped_witness :
    (pySplitMax4 "garbage").length < 5 ∧
      (parseLogLine "garbage" = none ∧
        parseLines ["garbage", "00:00:01 A I t Detected 5"] =
          parseLines ["00:00:01 A I t Detected 5"] ∧
        _parse_sourcex_logs ["garbage", "00:00:01 A I t Detected 5"] =
          _parse_sourcex_logs ["00:00:01 A I t Detected 5"]) :=
  ⟨by decide, c1_malformed_line_skipped "garbage" ["00:00:01 A I t Detected 5"] (by decide)⟩

/-- C10: when no line of the file parses (in particular for the empty
file), `read_sourcex_logs` raises an uncaught `IndexError` when taking the
first timestamp, instead of returning an empty summary. -/
theorem c10_no_wellformed_line_index_error (lines : List String)
    (h : lines.all (fun l => (parseLogLine l).isNone) = true) :
    read_sourcex_logs lines = .error .indexError := by
  have hnil : parseLines lines = [] := by
    induction lines with
    | nil => rfl
    | cons l ls ih =>
      rw [List.all_cons, Bool.and_eq_true] at h
      have h1 : parseLogLine l = none := Option.isNone_iff_eq_none.mp h.1
      simp [parseLines, h1, ih h.2]
  unfold read_sourcex_logs _parse_sourcex_logs
  rw [hnil]

/-- Witness for C10 at a concrete file with one unparseable line. -/
theorem c10_no_wellformed_line_index_error_witness :
    (["garbage line"].all (fun l => (parseLogLine l).isNone) = true) ∧
      read_sourcex_logs ["garbage line"] = .error .indexError :=
  ⟨by decide, c10_no_wellformed_line_index_error ["garbage line"] (by decide)⟩

/-- C3 counterexample: for `Deblended 5` followed by `Deblended 3`, the
second report has a count below the running maximum, yet it is appended to
the deblended series (which is therefore decreasing), contradicting the
claim that such reports are discarded. -/
theorem c3_cex_nonincreasing_report_appended :
    (read_sourcex_logs ["00:00:00 A I t Deblended 5",
        "00:00:01 A I t Deblended 3"]).map (fun d => d.deblended) =
      .ok [(0, 5), (1, 3)] ∧ ¬ ((5 : Int) ≤ (3 : Int)) := by
  decide

/-- C3 (amended): a `Deblended` report whose count does not exceed the
running maximum is still appended to the deblended series; only the
deblending interval and the running maximum are left unchanged by it. -/
theorem c3_nonincreasing_deblended_appended (m : String) (t : Rat)
    (u : LoopState) (s0 cs : String) (c : Int)
    (hpre : pyStartsWith m "Deblended" = true)
    (hsplit : pySplit m = [s0, cs])
    (hc : pyParseInt cs = some c)
    (hle : c ≤ u.deblending_max) :
    step m t u = .ok { u with
      count := some c
      data := { u.data with deblended := u.data.deblended ++ [(t, c)] } } := by
  have f1 : pyStartsWith m "thread-count =" = false :=
    startsWith_excl_false hpre (by decide) (by decide)
  have f2 : pyStartsWith m "tile-memory-limit =" = false :=
    startsWith_excl_false hpre (by decide) (by decide)
  have f3 : pyStartsWith m "Background for image" = false :=
    startsWith_excl_false hpre (by decide) (by decide)
  have f4 : pyStartsWith m "Segmentation" = false :=
    startsWith_excl_false hpre (by decide) (by decide)
  have f5 : pyStartsWith m "Detected" = false :=
    startsWith_excl_false hpre (by decide) (by decide)
  have f6 : pyStartsWith m "Measured" = false :=
    startsWith_excl_false hpre (by decide) (by decide)
  have hnlt : ¬ (c > u.deblending_max) := not_lt.mpr hle
  simp [step, stepDeblended, deblendingUpdate, f1, f2, f3, f4, f5, f6, hpre, hsplit, hc, hnlt]

/-- Witness for the amended C3 theorem at a concrete non-increasing report. -/
theorem c3_nonincreasing_deblended_appended_witness :
    pyStartsWith "Deblended 3" "Deblended" = true ∧
      pySplit "Deblended 3" = ["Deblended", "3"] ∧
      pyParseInt "3" = some 3 ∧
      (3 : Int) ≤ ({ deblending_max := 7 } : LoopState).deblending_max ∧
      step "Deblended 3" 2 { deblending_max := 7 } =
        .ok { count := some 3, deblending_max := 7,
              data := { deblended := [(2, 3)] } } :=
  ⟨by decide, by decide, by decide, by decide,
    c3_nonincreasing_deblended_appended "Deblended 3" 2 { deblending_max := 7 }
      "Deblended" "3" 3 (by decide) (by decide) (by decide) (by decide)⟩

/-- Inversion for the `thread-count =` branch. -/
theorem stepThreadCount_ok {m : String} {st st' : LoopState}
    (h : stepThreadCount m st = .ok st') :
    ∃ n, st' = { st with data := { st.data with thread_count := some n } } := by
  unfold stepThreadCount at h
  split at h
  · exact (Except.noConfusion h)
  · split at h
    · exact (Except.noConfusion h)
    · injection h with h'
      exact ⟨_, h'.symm⟩

/-- Inversion for the `tile-memory-limit =` branch. -/
theorem stepTileMemoryLimit_ok {m : String} {st st' : LoopState}
    (h : stepTileMemoryLimit m st = .ok st') :
    ∃ n, st' = { st with data := { st.data with tile_memory_limit := some n } } := by
  unfold stepTileMemoryLimit at h
  split at h
  · exact (Except.noConfusion h)
  · split at h
    · exact (Except.noConfusion h)
    · injection h with h'
      exact ⟨_, h'.symm⟩

/-- Inversion for the `Segmentation` branch. -/
theorem stepSegmentation_ok {m : String} {t : Rat} {st st' : LoopState}
    (h : stepSegmentation m t st = .ok st') :
    ∃ line, st' = segmentationUpdate line t st := by
  unfold stepSegmentation at h
  split at h
  · split at h
    · exact (Except.noConfusion h)
    · injection h with h'
      exact ⟨_, h'.symm⟩
  · exact (Except.noConfusion h)

/-- Inversion for the `Detected` branch. -/
theorem stepDetected_ok {m : String} {t : Rat} {st st' : LoopState}
    (h : stepDetected m t st = .ok st') :
    ∃ c, st' = { st with
      count := some c
      data := { st.data with detected := st.data.detected ++ [(t, c)] } } := by
  unfold stepDetected at h
  split at h
  · exact (Except.noConfusion h)
  · split at h
    · exact (Except.noConfusion h)
    · injection h with h'
      exact ⟨_, h'.symm⟩

/-- Inversion for the `Measured` branch. -/
theorem stepMeasured_ok {m : String} {t : Rat} {st st' : LoopState}
    (h : stepMeasured m t st = .ok st') :
    ∃ c, st' = measurementUpdate c t st ∨
      st' = { st with data := { st.data with measured := st.data.measured ++ [(t, c)] } } := by
  unfold stepMeasured at h
  split at h
  · split at h
    · exact (Except.noConfusion h)
    · split at h
      · exact (Except.noConfusion h)
      · injection h with h'
        exact ⟨_, Or.inl h'.symm⟩
  · split at h
    · exact (Except.noConfusion h)
    · injection h with h'
      exact ⟨_, Or.inr h'.symm⟩

/-- Inversion for the `Deblended` branch. -/
theorem stepDeblended_ok {m : String} {t : Rat} {st st' : LoopState}
    (h : stepDeblended m t st = .ok st') :
    ∃ c, st' = deblendingUpdate c t st := by
  unfold stepDeblended at h
  split at h
  · split at h
    · exact (Except.noConfusion h)
    · injection h with h'
      exact ⟨_, h'.symm⟩
  · exact (Except.noConfusion h)

/-- Complete case analysis of one loop iteration: which `elif` branch ran,
and the resulting state. -/
theorem step_cases {m : String} {t : Rat} {st st' : LoopState}
    (h : step m t st = .ok st') :
    (pyStartsWith m "thread-count =" = true ∧
      ∃ n, st' = { st with data := { st.data with thread_count := some n } }) ∨
    (pyStartsWith m "tile-memory-limit =" = true ∧
      ∃ n, st' = { st with data := { st.data with tile_memory_limit := some n } }) ∨
    (pyStartsWith m "Background for image" = true ∧ st' = stepBackground t st) ∨
    (pyStartsWith m "Segmentation" = true ∧ ∃ line, st' = segmentationUpdate line t st) ∨
    (pyStartsWith m "Detected" = true ∧
      ∃ c, st' = { st with
        count := some c
        data := { st.data with detected := st.data.detected ++ [(t, c)] } }) ∨
    (pyStartsWith m "Measured" = true ∧
      ∃ c, st' = measurementUpdate c t st ∨
        st' = { st with data := { st.data with measured := st.data.measured ++ [(t, c)] } }) ∨
    (pyStartsWith m "Deblended" = true ∧ ∃ c, st' = deblendingUpdate c t st) ∨
    (pyStartsWith m "thread-count =" = false ∧
      pyStartsWith m "tile-memory-limit =" = false ∧
      pyStartsWith m "Background for image" = false ∧
      pyStartsWith m "Segmentation" = false ∧
      pyStartsWith m "Detected" = false ∧
      pyStartsWith m "Measured" = false ∧
      pyStartsWith m "Deblended" = false ∧ st' = stepOther t st) := by
  unfold step at h
  split at h
  · exact Or.inl ⟨by assumption, stepThreadCount_ok h⟩
  · split at h
    · exact Or.inr (Or.inl ⟨by assumption, stepTileMemoryLimit_ok h⟩)
    · split at h
      · injection h with h'
        exact Or.inr (Or.inr (Or.inl ⟨by assumption, h'.symm⟩))
      · split at h
        · exact Or.inr (Or.inr (Or.inr (Or.inl ⟨by assumption, stepSegmentation_ok h⟩)))
        · split at h
          · exact Or.inr (Or.inr (Or.inr (Or.inr (Or.inl ⟨by assumption, stepDetected_ok h⟩))))
          · split at h
            · exact Or.inr (Or.inr (Or.inr (Or.inr (Or.inr (Or.inl
                ⟨by assumption, stepMeasured_ok h⟩)))))
            · split at h
              · exact Or.inr (Or.inr (Or.inr (Or.inr (Or.inr (Or.inr (Or.inl
                  ⟨by assumption, stepDeblended_ok h⟩))))))
              · injection h with h'
                refine Or.inr (Or.inr (Or.inr (Or.inr (Or.inr (Or.inr (Or.inr
                  ⟨?_, ?_, ?_, ?_, ?_, ?_, ?_, h'.symm⟩))))))
                all_goals simp_all

@[simp] theorem segmentationUpdate_segmented (line : Int) (t : Rat) (st : LoopState) :
    (segmentationUpdate line t st).data.segmented = st.data.segmented ++ [(t, line)] := by
  simp only [segmentationUpdate]
  split
  · rfl
  · split <;> rfl

@[simp] theorem segmentationUpdate_detected (line : Int) (t : Rat) (st : LoopState) :
    (segmentationUpdate line t st).data.detected = st.data.detected := by
  simp only [segmentationUpdate]
  split
  · rfl
  · split <;> rfl

@[simp] theorem segmentationUpdate_measured (line : Int) (t : Rat) (st : LoopState) :
    (segmentationUpdate line t st).data.measured = st.data.measured := by
  simp only [segmentationUpdate]
  split
  · rfl
  · split <;> rfl

@[simp] theorem segmentationUpdate_deblended (line : Int) (t : Rat) (st : LoopState) :
    (segmentationUpdate line t st).data.deblended = st.data.deblended := by
  simp only [segmentationUpdate]
  split
  · rfl
  · split <;> rfl

@[simp] theorem measurementUpdate_segmented (c : Int) (t : Rat) (st : LoopState) :
    (measurementUpdate c t st).data.segmented = st.data.segmented := by
  simp only [measurementUpdate]
  split <;> split <;> rfl

@[simp] theorem measurementUpdate_detected (c : Int) (t : Rat) (st : LoopState) :
    (measurementUpdate c t st).data.detected = st.data.detected := by
  simp only [measurementUpdate]
  split <;> split <;> rfl

@[simp] theorem measurementUpdate_measured (c : Int) (t : Rat) (st : LoopState) :
    (measurementUpdate c t st).data.measured = st.data.measured ++ [(t, c)] := by
  simp only [measurementUpdate]
  split <;> split <;> rfl

@[simp] theorem measurementUpdate_deblended (c : Int) (t : Rat) (st : LoopState) :
    (measurementUpdate c t st).data.deblended = st.data.deblended := by
  simp only [measurementUpdate]
  split <;> split <;> rfl

@[simp] theorem measurementUpdate_segmentation (c : Int) (t : Rat) (st : LoopState) :
    (measurementUpdate c t st).data.segmentation = st.data.segmentation := by
  simp only [measurementUpdate]
  split <;> split <;> rfl

@[simp] theorem measurementUpdate_segmented_max (c : Int) (t : Rat) (st : LoopState) :
    (measurementUpdate c t st).segmented_max = st.segmented_max := by
  simp only [measurementUpdate]
  split <;> split <;> rfl

@[simp] theorem deblendingUpdate_segmented (c : Int) (t : Rat) (st : LoopState) :
    (deblendingUpdate c t st).data.segmented = st.data.segmented := by
  simp only [deblendingUpdate]
  split
  · split <;> rfl
  · rfl

@[simp] theorem deblendingUpdate_detected (c : Int) (t : Rat) (st : LoopState) :
    (deblendingUpdate c t st).data.detected = st.data.detected := by
  simp only [deblendingUpdate]
  split
  · split <;> rfl
  · rfl

@[simp] theorem deblendingUpdate_measured (c : Int) (t : Rat) (st : LoopState) :
    (deblendingUpdate c t st).data.measured = st.data.measured := by
  simp only [deblendingUpdate]
  split
  · split <;> rfl
  · rfl

@[simp] theorem deblendingUpdate_deblended (c : Int) (t : Rat) (st : LoopState) :
    (deblendingUpdate c t st).data.deblended = st.data.deblended ++ [(t, c)] := by
  simp only [deblendingUpdate]
  split
  · split <;> rfl
  · rfl

@[simp] theorem deblendingUpdate_segmentation (c : Int) (t : Rat) (st : LoopState) :
    (deblendingUpdate c t st).data.segmentation = st.data.segmentation := by
  simp only [deblendingUpdate]
  split
  · split <;> rfl
  · rfl

@[simp] theorem deblendingUpdate_segmented_max (c : Int) (t : Rat) (st : LoopState) :
    (deblendingUpdate c t st).segmented_max = st.segmented_max := by
  simp only [deblendingUpdate]
  split
  · split <;> rfl
  · rfl

/-- The `Segmentation` update advances the segmentation end only to the
current elapsed time and only when a start is already recorded, and keeps
the high-watermark nonnegative. -/
theorem segmentationUpdate_end (line : Int) (t : Rat) (st : LoopState)
    (hmax : 0 ≤ st.segmented_max) :
    0 ≤ (segmentationUpdate line t st).segmented_max ∧
      ((segmentationUpdate line t st).data.segmentation.2 = st.data.segmentation.2 ∨
        ((segmentationUpdate line t st).data.segmentation.2 = some t ∧
          st.data.segmentation.1 ≠ none)) := by
  simp only [segmentationUpdate]
  by_cases h1 : line > 0 ∧ st.data.segmentation.1 = none
  · rw [if_pos h1]
    exact ⟨hmax, Or.inl rfl⟩
  · rw [if_neg h1]
    by_cases h2 : line > st.segmented_max
    · rw [if_pos h2]
      have hl : (0 : Int) < line := lt_of_le_of_lt hmax h2
      exact ⟨le_of_lt hl, Or.inr ⟨rfl, fun hn => h1 ⟨hl, hn⟩⟩⟩
    · rw [if_neg h2]
      exact ⟨hmax, Or.inl rfl⟩

/-- Across one loop iteration the segmentation end either stays unchanged or
becomes the current elapsed time with a start already recorded, and the
segmentation high-watermark stays nonnegative. -/
theorem step_segmentation_end {m : String} {t : Rat} {st st' : LoopState}
    (h : step m t st = .ok st') (hmax : 0 ≤ st.segmented_max) :
    0 ≤ st'.segmented_max ∧
      (st'.data.segmentation.2 = st.data.segmentation.2 ∨
        (st'.data.segmentation.2 = some t ∧ st.data.segmentation.1 ≠ none)) := by
  rcases step_cases h with ⟨_, n, rfl⟩ | ⟨_, n, rfl⟩ | ⟨_, rfl⟩ | ⟨_, line, rfl⟩ |
    ⟨_, c, rfl⟩ | ⟨_, c, hc⟩ | ⟨_, c, rfl⟩ | ⟨_, _, _, _, _, _, _, rfl⟩
  · exact ⟨hmax, Or.inl rfl⟩
  · exact ⟨hmax, Or.inl rfl⟩
  · exact ⟨hmax, Or.inl rfl⟩
  · exact segmentationUpdate_end line t st hmax
  · exact ⟨hmax, Or.inl rfl⟩
  · rcases hc with rfl | rfl
    · rw [measurementUpdate_segmented_max, measurementUpdate_segmentation]
      exact ⟨hmax, Or.inl rfl⟩
    · exact ⟨hmax, Or.inl rfl⟩
  · rw [deblendingUpdate_segmented_max, deblendingUpdate_segmentation]
    exact ⟨hmax, Or.inl rfl⟩
  · unfold stepOther
    cases st.first <;> exact ⟨hmax, Or.inl rfl⟩

/-- Across a run of the loop the segmentation end is either untouched or
set to the elapsed time of one of the processed messages. -/
theorem runLoop_segmentation_end (msgs : List (String × Rat)) (st st' : LoopState)
    (h : runLoop msgs st = .ok st') (hmax : 0 ≤ st.segmented_max) :
    0 ≤ st'.segmented_max ∧
      (st'.data.segmentation.2 = st.data.segmentation.2 ∨
        ∃ p ∈ msgs, st'.data.segmentation.2 = some p.2) := by
  induction msgs generalizing st with
  | nil =>
    simp only [runLoop] at h
    injection h with h'
    subst h'
    exact ⟨hmax, Or.inl rfl⟩
  | cons p rest ih =>
    obtain ⟨m, t⟩ := p
    rw [runLoop] at h
    cases hstep : step m t st with
    | error e => rw [hstep] at h; exact (Except.noConfusion h)
    | ok st1 =>
      rw [hstep] at h
      obtain ⟨hm1, hseg1⟩ := step_segmentation_end hstep hmax
      obtain ⟨hm', hseg'⟩ := ih st1 h hm1
      refine ⟨hm', ?_⟩
      rcases hseg' with heq | ⟨q, hq, he⟩
      · rcases hseg1 with h1 | ⟨h1, _⟩
        · exact Or.inl (heq.trans h1)
        · exact Or.inr ⟨(m, t), List.mem_cons_self _ _, heq.trans h1⟩
      · exact Or.inr ⟨q, List.mem_cons_of_mem _ hq, he⟩

/-- The first parsed entry has elapsed time zero (its timestamp minus
itself). -/
theorem parse_head_elapsed (lines : List String) (msgs : List (String × Rat))
    (hp : _parse_sourcex_logs lines = .ok msgs) :
    ∃ m0 rest, msgs = (m0, 0) :: rest := by
  unfold _parse_sourcex_logs at hp
  split at hp
  · exact (Except.noConfusion hp)
  · injection hp with h'
    rename_i e es heq
    refine ⟨e.message, es.map fun x => (x.message, x.timestamp - e.timestamp), ?_⟩
    rw [← h']
    simp

/-- C5: the post-pass defaults the segmentation end to the deblending end
exactly when no `Segmentation` message ever set it; an observed segmentation
end (necessarily nonzero in a chronologically strictly increasing log) is
left unchanged. -/
theorem c5_segmentation_end_default (lines : List String)
    (msgs : List (String × Rat)) (st : LoopState)
    (hp : _parse_sourcex_logs lines = .ok msgs)
    (hr : runLoop msgs {} = .ok st)
    (hmono : (msgs.map Prod.snd).Pairwise (· < ·)) :
    read_sourcex_logs lines = .ok (postPass st.data) ∧
      (st.data.segmentation.2 = none →
        (postPass st.data).segmentation.2 = st.data.deblending.2) ∧
      (∀ x, st.data.segmentation.2 = some x →
        (postPass st.data).segmentation.2 = some x) := by
  refine ⟨?_, ?_, ?_⟩
  · simp [read_sourcex_logs, hp, hr]
  · intro hnone
    simp [postPass, segEndFalsy, hnone]
  · intro x hx
    obtain ⟨m0, rest, hmsgs⟩ := parse_head_elapsed lines msgs hp
    subst hmsgs
    rw [runLoop] at hr
    cases hstep : step m0 0 {} with
    | error e =>
      rw [hstep] at hr
      exact (Except.noConfusion hr)
    | ok st1 =>
      rw [hstep] at hr
      have h1 := step_segmentation_end hstep (by decide)
      rcases h1.2 with he | ⟨_, hne⟩
      · have hse : st1.data.segmentation.2 = none := he
        have h2 := runLoop_segmentation_end rest st1 st hr h1.1
        rcases h2.2 with heq | ⟨q, hq, heq⟩
        · rw [hx, hse] at heq
          exact (Option.noConfusion heq)
        · rw [hx] at heq
          injection heq with hxq
          rw [List.map_cons, List.pairwise_cons] at hmono
          have hqpos : (0 : Rat) < q.2 :=
            hmono.1 q.2 (List.mem_map_of_mem Prod.snd hq)
          have hx0 : x ≠ 0 := by
            rw [hxq]
            exact hqpos.ne'
          simp [postPass, segEndFalsy, hx, hx0]
      · exact absurd rfl hne

/-- Loop state reached by the run used in the C5 witness. -/
def segEndRunState : LoopState :=
  { data := {
      segmentation := (some 0, some 1), deblending := (some 2, some 2),
      segmented := [(0, 1), (1, 2)], deblended := [(2, 3)] },
    deblending_max := 3, segmented_max := 2, count := some 3 }

/-- Witness for C5 at a concrete three-line log with an observed nonzero
segmentation end. -/
theorem c5_segmentation_end_default_witness :
    read_sourcex_logs ["00:00:00 A I t Segmentation 1 of 10 done",
        "00:00:01 A I t Segmentation 2 of 10 done",
        "00:00:02 A I t Deblended 3"] = .ok (postPass segEndRunState.data) ∧
      (segEndRunState.data.segmentation.2 = none →
        (postPass segEndRunState.data).segmentation.2 =
          segEndRunState.data.deblending.2) ∧
      (∀ x, segEndRunState.data.segmentation.2 = some x →
        (postPass segEndRunState.data).segmentation.2 = some x) :=
  c5_segmentation_end_default
    ["00:00:00 A I t Segmentation 1 of 10 done",
     "00:00:01 A I t Segmentation 2 of 10 done",
     "00:00:02 A I t Deblended 3"]
    [("Segmentation 1 of 10 done", 0), ("Segmentation 2 of 10 done", 1),
     ("Deblended 3", 2)]
    segEndRunState (by decide) (by decide) (by decide)

/-- One loop iteration appends the current elapsed time to exactly the
series whose message prefix matched, and leaves the other series alone. -/
theorem step_series {m : String} {t : Rat} {st st' : LoopState}
    (h : step m t st = .ok st') :
    st'.data.segmented.map Prod.fst = st.data.segmented.map Prod.fst ++
        (if pyStartsWith m "Segmentation" = true then [t] else []) ∧
    st'.data.detected.map Prod.fst = st.data.detected.map Prod.fst ++
        (if pyStartsWith m "Detected" = true then [t] else []) ∧
    st'.data.measured.map Prod.fst = st.data.measured.map Prod.fst ++
        (if pyStartsWith m "Measured" = true then [t] else []) ∧
    st'.data.deblended.map Prod.fst = st.data.deblended.map Prod.fst ++
        (if pyStartsWith m "Deblended" = true then [t] else []) := by
  rcases step_cases h with ⟨hc, n, rfl⟩ | ⟨hc, n, rfl⟩ | ⟨hc, rfl⟩ | ⟨hc, line, rfl⟩ |
    ⟨hc, c, rfl⟩ | ⟨hc, c, hcc⟩ | ⟨hc, c, rfl⟩ | ⟨h1, h2, h3, h4, h5, h6, h7, rfl⟩
  · have g1 : pyStartsWith m "Segmentation" = false :=
      startsWith_excl_false hc (by decide) (by decide)
    have g2 : pyStartsWith m "Detected" = false :=
      startsWith_excl_false hc (by decide) (by decide)
    have g3 : pyStartsWith m "Measured" = false :=
      startsWith_excl_false hc (by decide) (by decide)
    have g4 : pyStartsWith m "Deblended" = false :=
      startsWith_excl_false hc (by decide) (by decide)
    simp [g1, g2, g3, g4]
  · have g1 : pyStartsWith m "Segmentation" = false :=
      startsWith_excl_false hc (by decide) (by decide)
    have g2 : pyStartsWith m "Detected" = false :=
      startsWith_excl_false hc (by decide) (by decide)
    have g3 : pyStartsWith m "Measured" = false :=
      startsWith_excl_false hc (by decide) (by decide)
    have g4 : pyStartsWith m "Deblended" = false :=
      startsWith_excl_false hc (by decide) (by decide)
    simp [g1, g2, g3, g4]
  · have g1 : pyStartsWith m "Segmentation" = false :=
      startsWith_excl_false hc (by decide) (by decide)
    have g2 : pyStartsWith m "Detected" = false :=
      startsWith_excl_false hc (by decide) (by decide)
    have g3 : pyStartsWith m "Measured" = false :=
      startsWith_excl_false hc (by decide) (by decide)
    have g4 : pyStartsWith m "Deblended" = false :=
      startsWith_excl_false hc (by decide) (by decide)
    simp [stepBackground, g1, g2, g3, g4]
  · have g2 : pyStartsWith m "Detected" = false :=
      startsWith_excl_false hc (by decide) (by decide)
    have g3 : pyStartsWith m "Measured" = false :=
      startsWith_excl_false hc (by decide) (by decide)
    have g4 : pyStartsWith m "Deblended" = false :=
      startsWith_excl_false hc (by decide) (by decide)
    simp [hc, g2, g3, g4]
  · have g1 : pyStartsWith m "Segmentation" = false :=
      startsWith_excl_false hc (by decide) (by decide)
    have g3 : pyStartsWith m "Measured" = false :=
      startsWith_excl_false hc (by decide) (by decide)
    have g4 : pyStartsWith m "Deblended" = false :=
      startsWith_excl_false hc (by decide) (by decide)
    simp [hc, g1, g3, g4]
  · have g1 : pyStartsWith m "Segmentation" = false :=
      startsWith_excl_false hc (by decide) (by decide)
    have g2 : pyStartsWith m "Detected" = false :=
      startsWith_excl_false hc (by decide) (by decide)
    have g4 : pyStartsWith m "Deblended" = false :=
      startsWith_excl_false hc (by decide) (by decide)
    rcases hcc with rfl | rfl
    · simp [hc, g1, g2, g4]
    · simp [hc, g1, g2, g4]
  · have g1 : pyStartsWith m "Segmentation" = false :=
      startsWith_excl_false hc (by decide) (by decide)
    have g2 : pyStartsWith m "Detected" = false :=
      startsWith_excl_false hc (by decide) (by decide)
    have g3 : pyStartsWith m "Measured" = false :=
      startsWith_excl_false hc (by decide) (by decide)
    simp [hc, g1, g2, g3]
  · unfold stepOther
    cases st.first <;> simp [h4, h5, h6, h7]

/-- Across a run of the loop each series records the elapsed times of
exactly the messages with the matching prefix, in order. -/
theorem runLoop_series (msgs : List (String × Rat)) (st st' : LoopState)
    (h : runLoop msgs st = .ok st') :
    st'.data.segmented.map Prod.fst = st.data.segmented.map Prod.fst ++
        ((msgs.filter fun p => pyStartsWith p.1 "Segmentation").map Prod.snd) ∧
    st'.data.detected.map Prod.fst = st.data.detected.map Prod.fst ++
        ((msgs.filter fun p => pyStartsWith p.1 "Detected").map Prod.snd) ∧
    st'.data.measured.map Prod.fst = st.data.measured.map Prod.fst ++
        ((msgs.filter fun p => pyStartsWith p.1 "Measured").map Prod.snd) ∧
    st'.data.deblended.map Prod.fst = st.data.deblended.map Prod.fst ++
        ((msgs.filter fun p => pyStartsWith p.1 "Deblended").map Prod.snd) := by
  induction msgs generalizing st with
  | nil =>
    simp only [runLoop] at h
    injection h with h'
    subst h'
    simp
  | cons p rest ih =>
    obtain ⟨m, t⟩ := p
    rw [runLoop] at h
    cases hstep : step m t st with
    | error e => rw [hstep] at h; exact (Except.noConfusion h)
    | ok st1 =>
      rw [hstep] at h
      obtain ⟨s1, s2, s3, s4⟩ := step_series hstep
      obtain ⟨r1, r2, r3, r4⟩ := ih st1 h
      refine ⟨?_, ?_, ?_, ?_⟩
      · rw [r1, s1, List.filter_cons]
        cases hpred : pyStartsWith m "Segmentation" <;> simp [hpred, List.append_assoc]
      · rw [r2, s2, List.filter_cons]
        cases hpred : pyStartsWith m "Detected" <;> simp [hpred, List.append_assoc]
      · rw [r3, s3, List.filter_cons]
        cases hpred : pyStartsWith m "Measured" <;> simp [hpred, List.append_assoc]
      · rw [r4, s4, List.filter_cons]
        cases hpred : pyStartsWith m "Deblended" <;> simp [hpred, List.append_assoc]

@[simp] theorem postPass_segmented (d : SourceXData) :
    (postPass d).segmented = d.segmented := by
  unfold postPass
  split <;> rfl

@[simp] theorem postPass_detected (d : SourceXData) :
    (postPass d).detected = d.detected := by
  unfold postPass
  split <;> rfl

@[simp] theorem postPass_measured (d : SourceXData) :
    (postPass d).measured = d.measured := by
  unfold postPass
  split <;> rfl

@[simp] theorem postPass_deblended (d : SourceXData) :
    (postPass d).deblended = d.deblended := by
  unfold postPass
  split <;> rfl

/-- C2: for a log whose elapsed times are strictly increasing, each of the
four series has length equal to the number of parsed log lines whose message
starts with the corresponding prefix, and the time values of each series are
strictly increasing. -/
theorem c2_series_lengths_and_strict_times (lines : List String)
    (msgs : List (String × Rat)) (st : LoopState)
    (hp : _parse_sourcex_logs lines = .ok msgs)
    (hr : runLoop msgs {} = .ok st)
    (hmono : (msgs.map Prod.snd).Pairwise (· < ·)) :
    read_sourcex_logs lines = .ok (postPass st.data) ∧
    (postPass st.data).segmented.length =
      (msgs.filter fun p => pyStartsWith p.1 "Segmentation").length ∧
    (postPass st.data).detected.length =
      (msgs.filter fun p => pyStartsWith p.1 "Detected").length ∧
    (postPass st.data).measured.length =
      (msgs.filter fun p => pyStartsWith p.1 "Measured").length ∧
    (postPass st.data).deblended.length =
      (msgs.filter fun p => pyStartsWith p.1 "Deblended").length ∧
    ((postPass st.data).segmented.map Prod.fst).Pairwise (· < ·) ∧
    ((postPass st.data).detected.map Prod.fst).Pairwise (· < ·) ∧
    ((postPass st.data).measured.map Prod.fst).Pairwise (· < ·) ∧
    ((postPass st.data).deblended.map Prod.fst).Pairwise (· < ·) := by
  obtain ⟨r1, r2, r3, r4⟩ := runLoop_series msgs {} st hr
  simp only [show ({} : LoopState).data.segmented = [] from rfl,
    show ({} : LoopState).data.detected = [] from rfl,
    show ({} : LoopState).data.measured = [] from rfl,
    show ({} : LoopState).data.deblended = [] from rfl,
    List.map_nil, List.nil_append] at r1 r2 r3 r4
  have key : ∀ (ser : List (Rat × Int)) (pred : String × Rat → Bool),
      ser.map Prod.fst = (msgs.filter pred).map Prod.snd →
      ser.length = (msgs.filter pred).length ∧
        (ser.map Prod.fst).Pairwise (· < ·) := by
    intro ser pred hser
    constructor
    · have hl := congrArg List.length hser
      simpa using hl
    · rw [hser]
      exact List.Pairwise.sublist
        (List.Sublist.map Prod.snd (List.filter_sublist msgs)) hmono
  obtain ⟨k1l, k1p⟩ := key _ _ r1
  obtain ⟨k2l, k2p⟩ := key _ _ r2
  obtain ⟨k3l, k3p⟩ := key _ _ r3
  obtain ⟨k4l, k4p⟩ := key _ _ r4
  refine ⟨by simp [read_sourcex_logs, hp, hr], ?_, ?_, ?_, ?_, ?_, ?_, ?_, ?_⟩ <;>
    simp only [postPass_segmented, postPass_detected, postPass_measured,
      postPass_deblended]
  · exact k1l
  · exact k2l
  · exact k3l
  · exact k4l
  · exact k1p
  · exact k2p
  · exact k3p
  · exact k4p

/-- Loop state reached by the run used in the C2 witness. -/
def seriesRunState : LoopState :=
  { data := {
      thread_count := some 4,
      segmentation := (some 1, none), deblending := (some 4, some 4),
      measurement := (some 3, some 3),
      segmented := [(1, 1)], detected := [(2, 5)],
      deblended := [(4, 4)], measured := [(3, 3)] },
    deblending_max := 4, measured_max := 3, segmented_max := 0,
    count := some 4 }

/-- Messages parsed from the log used in the C2 witness. -/
def seriesRunMsgs : List (String × Rat) :=
  [("thread-count = 4", 0), ("Segmentation 1 of 10 done", 1), ("Detected 5", 2),
   ("Measured 3 sources", 3), ("Deblended 4", 4)]

/-- Witness for C2 at a concrete five-line log exercising all four series. -/
theorem c2_series_lengths_and_strict_times_witness :
    read_sourcex_logs ["00:00:00 A I t thread-count = 4",
        "00:00:01 A I t Segmentation 1 of 10 done", "00:00:02 A I t Detected 5",
        "00:00:03 A I t Measured 3 sources", "00:00:04 A I t Deblended 4"] =
      .ok (postPass seriesRunState.data) ∧
    (postPass seriesRunState.data).segmented.length =
      (seriesRunMsgs.filter fun p => pyStartsWith p.1 "Segmentation").length ∧
    (postPass seriesRunState.data).detected.length =
      (seriesRunMsgs.filter fun p => pyStartsWith p.1 "Detected").length ∧
    (postPass seriesRunState.data).measured.length =
      (seriesRunMsgs.filter fun p => pyStartsWith p.1 "Measured").length ∧
    (postPass seriesRunState.data).deblended.length =
      (seriesRunMsgs.filter fun p => pyStartsWith p.1 "Deblended").length ∧
    ((postPass seriesRunState.data).segmented.map Prod.fst).Pairwise (· < ·) ∧
    ((postPass seriesRunState.data).detected.map Prod.fst).Pairwise (· < ·) ∧
    ((postPass seriesRunState.data).measured.map Prod.fst).Pairwise (· < ·) ∧
    ((postPass seriesRunState.data).deblended.map Prod.fst).Pairwise (· < ·) :=
  c2_series_lengths_and_strict_times
    ["00:00:00 A I t thread-count = 4", "00:00:01 A I t Segmentation 1 of 10 done",
     "00:00:02 A I t Detected 5", "00:00:03 A I t Measured 3 sources",
     "00:00:04 A I t Deblended 4"]
    seriesRunMsgs seriesRunState (by decide) (by decide) (by decide)

/-- A value stored in a sampler column: a parsed number, or the raw token
when parsing raised `ValueError`. -/
inductive PyVal where
  | num (r : Rat)
  | str (s : String)
deriving DecidableEq, Repr

/-- Model of Python `float(s)`: optional sign, then a decimal literal with
an optional fractional part (scientific notation, `inf`/`nan` are not
modelled; the sampler output considered here never uses them).  `none`
models the `ValueError`. -/
def parseFloatDigits (cs : List Char) : Option Rat :=
  match splitOnGo '.' cs [] with
  | [intPart] => (digitsToNat intPart).map fun n => (n : Rat)
  | [intPart, fracPart] =>
    if intPart = [] ∧ fracPart = [] then none
    else
      match (if intPart = [] then some 0 else digitsToNat intPart),
            (if fracPart = [] then some 0 else digitsToNat fracPart) with
      | some ip, some fp =>
        some ((ip : Rat) + (fp : Rat) / ((10 : Rat) ^ fracPart.length))
      | _, _ => none
  | _ => none

/-- Python `float(s)` on a stripped token. -/
def pyParseFloat (s : String) : Option Rat :=
  match (pyStrip s).data with
  | '-' :: rest => (parseFloatDigits rest).map fun q => -q
  | '+' :: rest => parseFloatDigits rest
  | cs => parseFloatDigits cs

/-- `parse_time`, lines 145-153: try `float(v)`, else fall back to
`mktime(parse(v).timetuple())`.  The dateutil/mktime fallback is modelled as
failing (its `ValueError` is what the caller catches), restricting the model
to the numeric-seconds time format; the claims checked here use numeric
times only. -/
def parse_time (v : String) : Option Rat :=
  pyParseFloat v

/-- Python `s.replace(pat, repl)` for a nonempty pattern: leftmost,
non-overlapping.  The fuel is an upper bound on the number of characters
still to scan; each step consumes at least one character. -/
def replaceGo (pat repl : List Char) : Nat → List Char → List Char
  | _, [] => []
  | 0, l => l
  | fuel + 1, c :: cs =>
    if pat ≠ [] ∧ pat.isPrefixOf (c :: cs) then
      repl ++ replaceGo pat repl fuel ((c :: cs).drop pat.length)
    else
      c :: replaceGo pat repl fuel cs

/-- Python `s.replace(pat, repl)`. -/
def pyReplace (s pat repl : String) : String :=
  String.mk (replaceGo pat.data repl.data s.data.length s.data)

/-- Tokenization of a sampler value line (lines 172-173): first join a
locale AM/PM suffix onto its time token with an underscore, then split on
whitespace. -/
def pidstatValues (line : String) : List String :=
  pySplit (pyReplace (pyReplace line " AM" "_AM") " PM" "_PM")

/-- Parse one value token for column `k` (lines 175-181): the `Time` column
goes through `parse_time` after undoing the AM/PM join; other columns
through `float`; on `ValueError` the raw token is stored instead. -/
def parseValue (k v : String) : PyVal :=
  if k = "Time" then
    match parse_time (pyReplace v "_" " ") with
    | some r => .num r
    | none => .str v
  else
    match pyParseFloat v with
    | some r => .num r
    | none => .str v

/-- State of the `read_pidstat` line loop: the insertion-ordered `data`
dictionary, the most recent header's `keys`, and the `reading_values`
flag. -/
structure PidstatState where
  data : List (String × List PyVal) := []
  keys : List String := []
  reading_values : Bool := false
deriving DecidableEq, Repr

/-- Header handling (lines 166-169): register each not-yet-seen column name,
preserving insertion order. -/
def registerKeys (data : List (String × List PyVal)) :
    List String → List (String × List PyVal)
  | [] => data
  | k :: ks =>
    registerKeys (if data.any fun p => p.1 = k then data else data ++ [(k, [])]) ks

/-- Python `data[k].append(v)` on the insertion-ordered dictionary. -/
def assocAppend (data : List (String × List PyVal)) (k : String) (v : PyVal) :
    List (String × List PyVal) :=
  data.map fun p => if p.1 = k then (p.1, p.2 ++ [v]) else p

/-- One iteration of the line loop of `read_pidstat` (lines 164-181):
`line[0]` raises `IndexError` on an empty string; a `#` line registers
columns; otherwise, once values are being read, tokens are zipped against
the current keys. -/
def pidstatLine (st : PidstatState) (line : String) : Except PyError PidstatState :=
  match line.data with
  | [] => .error .indexError
  | c :: _ =>
    if c = '#' then
      .ok { st with
            data := registerKeys st.data (pySplit (String.mk line.data.tail))
            keys := pySplit (String.mk line.data.tail)
            reading_values := true }
    else if st.reading_values then
      .ok { st with
            data := (st.keys.zip (pidstatValues line)).foldl
              (fun d kv => assocAppend d kv.1 (parseValue kv.1 kv.2)) st.data }
    else .ok st

/-- The whole line loop of `read_pidstat`. -/
def runPidstat : List String → PidstatState → Except PyError PidstatState
  | [], st => .ok st
  | l :: ls, st =>
    match pidstatLine st l with
    | .ok st' => runPidstat ls st'
    | .error e => .error e

/-- Successive differences against a running previous value. -/
def diffsFrom (prev : Rat) : List Rat → List Rat
  | [] => []
  | x :: xs => (x - prev) :: diffsFrom x xs

/-- `np.diff(time, prepend=time[0])` (line 185): the first difference is
zero, then the successive raw differences. -/
def npDiffPrepend : List Rat → List Rat
  | [] => []
  | x :: xs => diffsFrom x (x :: xs)

/-- `np.cumsum` (line 187). -/
def cumsum (l : List Rat) : List Rat :=
  (l.scanl (· + ·) 0).tail

/-- Lines 185-187: the wraparound-corrected elapsed time; every negative
successive difference gains `24 * 60 * 60` seconds, then the corrected
absolute time is rebuilt by a cumulative sum. -/
def correctTime (raw : List Rat) : List Rat :=
  cumsum ((npDiffPrepend raw).map fun d => if d < 0 then 24 * 60 * 60 + d else d)

/-- Python `data[k]` read access (raises `KeyError` when absent, hence
`Option`). -/
def getColumn (data : List (String × List PyVal)) (k : String) :
    Option (List PyVal) :=
  (data.find? fun p => p.1 = k).map fun p => p.2

/-- Python `data[k] = v`: replace in place when present, else append. -/
def setItem (data : List (String × List PyVal)) (k : String) (v : List PyVal) :
    List (String × List PyVal) :=
  if data.any fun p => p.1 = k then
    data.map fun p => if p.1 = k then (p.1, v) else p
  else data ++ [(k, v)]

/-- View a column as a numeric numpy array; `none` when a raw string is
present, in which case the arithmetic on the object array raises
`TypeError`. -/
def asRatList : List PyVal → Option (List Rat)
  | [] => some []
  | .num r :: rest => (asRatList rest).map fun l => r :: l
  | .str _ :: _ => none

/-- `read_pidstat`, lines 156-189: run the line loop, correct the `Time`
column for midnight wraparound (reading `data['Time'][0]` first, an
`IndexError` when empty), and derive `CPU = %CPU / 100 * ncores`. -/
def read_pidstat (lines : List String) (ncores : Rat := 32) :
    Except PyError (List (String × List PyVal)) :=
  match runPidstat lines {} with
  | .error e => .error e
  | .ok st =>
    match getColumn st.data "Time" with
    | none => .error .keyError
    | some timeVals =>
      match timeVals with
      | [] => .error .indexError
      | _ :: _ =>
        match asRatList timeVals with
        | none => .error .typeError
        | some times =>
          let data1 := setItem st.data "Time" ((correctTime times).map PyVal.num)
          match getColumn data1 "%CPU" with
          | none => .error .keyError
          | some cpuVals =>
            match asRatList cpuVals with
            | none => .error .typeError
            | some cpus =>
              .ok (setItem data1 "CPU"
                ((cpus.map fun c => c / 100 * ncores).map PyVal.num))

/-- C4 counterexample: for a sampler file whose raw `Time` values drop by
more than 24 hours (here 200000 s to 0 s), the +86400 s correction is not
enough and the returned `Time` series decreases, contradicting the claim
that the output is non-decreasing for every accepted input. -/
theorem c4_cex_corrected_time_decreases :
    (read_pidstat ["# Time %CPU", "200000 50", "0 50"] 32).map
        (fun d => getColumn d "Time") =
      .ok (some [.num 0, .num (-113600)]) ∧ ¬ ((0 : Rat) ≤ -113600) := by
  decide

/-- The head of a left scan is its initial value. -/
theorem scanl_head (f : Rat → Rat → Rat) (b : Rat) (l : List Rat) :
    (l.scanl f b).head? = some b := by
  cases l <;> simp [List.scanl]

/-- A left scan by addition of nonnegative increments is non-decreasing. -/
theorem scanl_nonneg_chain (l : List Rat) (a : Rat)
    (h : ∀ x ∈ l, 0 ≤ x) : (l.scanl (· + ·) a).Chain' (· ≤ ·) := by
  induction l generalizing a with
  | nil => simp [List.scanl]
  | cons x xs ih =>
    rw [List.scanl_cons, List.singleton_append, List.chain'_cons']
    constructor
    · intro y hy
      rw [scanl_head] at hy
      simp only [Option.mem_def, Option.some_inj] at hy
      subst hy
      have hx : 0 ≤ x := h x (List.mem_cons_self _ _)
      linarith
    · exact ih (a + x) fun y hy => h y (List.mem_cons_of_mem _ hy)

/-- The head of a cumulative sum is its first summand. -/
theorem cumsum_head (d : Rat) (l : List Rat) :
    (cumsum (d :: l)).head? = some d := by
  rw [cumsum, List.scanl_cons, List.singleton_append, List.tail_cons, scanl_head]
  simp

/-- C4 (amended): the output `Time` is the cumulative sum of the successive
raw differences with every negative difference corrected by +86400 s; it
always starts at 0, and it is non-decreasing whenever no raw successive
difference drops by more than 24 hours (in particular for wall-clock-of-day
values, which lie within one day). -/
theorem c4_corrected_time_zero_start_monotone (raw : List Rat) (hne : raw ≠ [])
    (hjump : ∀ d ∈ npDiffPrepend raw, -(24 * 60 * 60) ≤ d) :
    (correctTime raw).head? = some 0 ∧ (correctTime raw).Chain' (· ≤ ·) := by
  obtain ⟨x, xs, rfl⟩ := List.exists_cons_of_ne_nil hne
  have hdiff : npDiffPrepend (x :: xs) = 0 :: diffsFrom x xs := by
    simp [npDiffPrepend, diffsFrom, sub_self]
  constructor
  · rw [correctTime, hdiff, List.map_cons, cumsum_head]
    simp
  · rw [correctTime, cumsum]
    apply List.Chain'.tail
    apply scanl_nonneg_chain
    intro y hy
    rw [List.mem_map] at hy
    obtain ⟨d, hd, rfl⟩ := hy
    have hb := hjump d hd
    by_cases hneg : d < 0
    · rw [if_pos hneg]
      linarith
    · rw [if_neg hneg]
      linarith

/-- Witness for the amended C4 theorem at a concrete raw time list with a
small midnight-style backjump. -/
theorem c4_corrected_time_zero_start_monotone_witness :
    (([100, 50, 60] : List Rat) ≠ []) ∧
    (∀ d ∈ npDiffPrepend [100, 50, 60], -(24 * 60 * 60) ≤ d) ∧
    ((correctTime [100, 50, 60]).head? = some 0 ∧
      (correctTime [100, 50, 60]).Chain' (· ≤ ·)) :=
  ⟨by decide, by decide,
    c4_corrected_time_zero_start_monotone [100, 50, 60] (by decide) (by decide)⟩

/-- Registering all-new, duplicate-free column names appends them in order
with empty value lists. -/
theorem registerKeys_fresh (ks : List String) :
    ∀ (data : List (String × List PyVal)), ks.Nodup →
      (∀ k ∈ ks, (data.any fun p => p.1 = k) = false) →
      registerKeys data ks = data ++ ks.map fun k => (k, ([] : List PyVal)) := by
  induction ks with
  | nil =>
    intro data _ _
    simp [registerKeys]
  | cons k ks ih =>
    intro data hnd hf
    rw [List.nodup_cons] at hnd
    rw [registerKeys]
    rw [hf k (List.mem_cons_self _ _)]
    simp only [Bool.false_eq_true, if_false]
    rw [ih (data ++ [(k, [])]) hnd.2 ?fresh]
    · simp
    case fresh =>
      intro k' hk'
      have hne : ¬ (k = k') := fun he => hnd.1 (he ▸ hk')
      simp [List.any_append, hf k' (List.mem_cons_of_mem _ hk'), hne]

/-- Registering column names that are all already present is a no-op. -/
theorem registerKeys_noop (ks : List String) :
    ∀ (data : List (String × List PyVal)),
      (∀ k ∈ ks, (data.any fun p => p.1 = k) = true) →
      registerKeys data ks = data := by
  induction ks with
  | nil =>
    intro data _
    simp [registerKeys]
  | cons k ks ih =>
    intro data hf
    rw [registerKeys, hf k (List.mem_cons_self _ _)]
    simp only [if_true]
    exact ih data fun k' hk' => hf k' (List.mem_cons_of_mem _ hk')

/-- Key presence test against the insertion-ordered dictionary. -/
theorem any_key_eq_true {data : List (String × List PyVal)} {k : String} :
    (data.any fun p => p.1 = k) = true ↔ k ∈ data.map Prod.fst := by
  simp [List.any_eq_true, List.mem_map]

/-- Folding the per-token appends over a value row appends, to every
column, exactly the parsed tokens whose key matches it, in order. -/
theorem foldl_assocAppend (pairs : List (String × String)) :
    ∀ (d : List (String × List PyVal)),
      pairs.foldl (fun d kv => assocAppend d kv.1 (parseValue kv.1 kv.2)) d =
        d.map fun p => (p.1, p.2 ++
          ((pairs.filter fun q => q.1 = p.1).map fun q => parseValue q.1 q.2)) := by
  induction pairs with
  | nil =>
    intro d
    simp
  | cons q qs ih =>
    intro d
    rw [List.foldl_cons, ih, assocAppend, List.map_map]
    apply List.map_congr_left
    intro p _
    by_cases hp : p.1 = q.1
    · simp [Function.comp, List.filter_cons, hp, List.append_assoc]
    · have hq : ¬ (q.1 = p.1) := fun h => hp h.symm
      simp [Function.comp, List.filter_cons, hp, hq]

/-- A key not among the header keys matches no pair of the zipped row. -/
theorem zip_filter_not_mem (ks : List String) :
    ∀ (vs : List String) (k : String), k ∉ ks →
      ((ks.zip vs).filter fun q => q.1 = k) = [] := by
  induction ks with
  | nil =>
    intro vs k _
    simp
  | cons a ks ih =>
    intro vs k hk
    cases vs with
    | nil => simp
    | cons v vs =>
      rw [List.zip_cons_cons, List.filter_cons]
      have ha : ¬ (a = k) := fun h => hk (h ▸ List.mem_cons_self _ _)
      simp [ha, ih vs k fun h => hk (List.mem_cons_of_mem _ h)]

/-- With duplicate-free header keys and a long enough value row, each key
matches exactly one zipped pair. -/
theorem zip_filter_count_one (ks : List String) :
    ∀ (vs : List String) (k : String), ks.Nodup → k ∈ ks →
      ks.length ≤ vs.length →
      ((ks.zip vs).filter fun q => q.1 = k).length = 1 := by
  induction ks with
  | nil =>
    intro vs k _ hk _
    simp at hk
  | cons a ks ih =>
    intro vs k hnd hk hlen
    cases vs with
    | nil => simp at hlen
    | cons v vs =>
      rw [List.zip_cons_cons, List.filter_cons]
      rw [List.nodup_cons] at hnd
      rcases List.mem_cons.mp hk with rfl | hk2
      · simp [zip_filter_not_mem ks vs k hnd.1]
      · have ha : ¬ (a = k) := fun h => hnd.1 (h ▸ hk2)
        rw [if_neg (by simp [ha])]
        refine ih vs k hnd.2 hk2 ?_
        simp only [List.length_cons] at hlen
        omega

/-- Unfolding a header line of the sampler file. -/
theorem pidstatLine_header (st : PidstatState) (hdr : String)
    (hh : hdr.data.head? = some '#') :
    pidstatLine st hdr = .ok { st with
      data := registerKeys st.data (pySplit (String.mk hdr.data.tail))
      keys := pySplit (String.mk hdr.data.tail)
      reading_values := true } := by
  unfold pidstatLine
  cases hd : hdr.data with
  | nil =>
    rw [hd] at hh
    exact (Option.noConfusion hh)
  | cons c cs =>
    rw [hd] at hh
    simp only [List.head?_cons, Option.some_inj] at hh
    subst hh
    simp [hd]

/-- Unfolding a value line of the sampler file once values are being read. -/
theorem pidstatLine_value (st : PidstatState) (l : String)
    (hne : l.data ≠ []) (hnh : l.data.head? ≠ some '#')
    (hread : st.reading_values = true) :
    pidstatLine st l = .ok { st with
      data := (st.keys.zip (pidstatValues l)).foldl
        (fun d kv => assocAppend d kv.1 (parseValue kv.1 kv.2)) st.data } := by
  unfold pidstatLine
  cases hd : l.data with
  | nil => exact absurd hd hne
  | cons c cs =>
    rw [hd] at hnh
    simp only [List.head?_cons, ne_eq, Option.some_inj] at hnh
    simp [hd, hnh, hread]

/-- Unfolding one step of the line loop. -/
theorem runPidstat_cons (l : String) (ls : List String) (st : PidstatState) :
    runPidstat (l :: ls) st =
      match pidstatLine st l with
      | .ok st' => runPidstat ls st'
      | .error e => .error e := rfl

/-- The line loop distributes over list concatenation. -/
theorem runPidstat_append (xs ys : List String) :
    ∀ st, runPidstat (xs ++ ys) st =
      match runPidstat xs st with
      | .ok st1 => runPidstat ys st1
      | .error e => .error e := by
  induction xs with
  | nil =>
    intro st
    simp [runPidstat]
  | cons x xs ih =>
    intro st
    rw [List.cons_append, runPidstat, runPidstat]
    cases hx : pidstatLine st x with
    | error e => simp
    | ok st1 => simp [ih st1]

/-- Processing value rows (no `#` lines) keeps the keys, the column order
and the reading flag, and appends exactly one value per row to every
column, provided the header keys are duplicate-free and every row has
enough tokens. -/
theorem runPidstat_values (rows : List String) :
    ∀ (st : PidstatState), st.reading_values = true → st.keys.Nodup →
      (∀ l ∈ rows, l.data ≠ [] ∧ l.data.head? ≠ some '#' ∧
        st.keys.length ≤ (pidstatValues l).length) →
      (∀ p ∈ st.data, p.1 ∈ st.keys) →
      ∃ st', runPidstat rows st = .ok st' ∧ st'.keys = st.keys ∧
        st'.reading_values = true ∧
        st'.data.map Prod.fst = st.data.map Prod.fst ∧
        st'.data.map (fun p => (p.1, p.2.length)) =
          st.data.map fun p => (p.1, p.2.length + rows.length) := by
  induction rows with
  | nil =>
    intro st hread _ _ _
    exact ⟨st, rfl, rfl, hread, rfl, by simp⟩
  | cons row rows ih =>
    intro st hread hnd hrows hcols
    obtain ⟨hne, hnh, hlen⟩ := hrows row (List.mem_cons_self _ _)
    have hline := pidstatLine_value st row hne hnh hread
    have hfold := foldl_assocAppend (st.keys.zip (pidstatValues row)) st.data
    have hcols1 : ∀ p ∈ ((st.keys.zip (pidstatValues row)).foldl
        (fun d kv => assocAppend d kv.1 (parseValue kv.1 kv.2)) st.data),
        p.1 ∈ st.keys := by
      intro p hp
      rw [hfold, List.mem_map] at hp
      obtain ⟨p0, hp0, rfl⟩ := hp
      exact hcols p0 hp0
    obtain ⟨st', hrun', hkeys', hread', hfst', hlens'⟩ :=
      ih { st with data := ((st.keys.zip (pidstatValues row)).foldl
            (fun d kv => assocAppend d kv.1 (parseValue kv.1 kv.2)) st.data) }
        hread hnd (fun l hl => hrows l (List.mem_cons_of_mem _ hl)) hcols1
    refine ⟨st', ?_, hkeys', hread', ?_, ?_⟩
    · rw [runPidstat, hline]
      exact hrun'
    · rw [hfst', hfold, List.map_map]
      exact List.map_congr_left fun p _ => rfl
    · rw [hlens', hfold, List.map_map]
      apply List.map_congr_left
      intro p hp
      have h1 : ((st.keys.zip (pidstatValues row)).filter
          fun q => q.1 = p.1).length = 1 :=
        zip_filter_count_one st.keys (pidstatValues row) p.1 hnd (hcols p hp) hlen
      simp only [Function.comp, List.length_append, List.length_map, h1,
        List.length_cons, Prod.mk.injEq, true_and]
      omega

/-- C7: a sampler file with two header blocks carrying the same column
names yields one merged column set: the run equals the single-header run,
each column name is registered once in insertion order, and every column
holds the combined number of value rows from both blocks. -/
theorem c7_repeated_header_merged (hdr : String) (b1 b2 : List String)
    (st : PidstatState)
    (hh : hdr.data.head? = some '#')
    (hnd : (pySplit (String.mk hdr.data.tail)).Nodup)
    (hrows : ∀ l ∈ b1 ++ b2, l.data ≠ [] ∧ l.data.head? ≠ some '#' ∧
      (pySplit (String.mk hdr.data.tail)).length ≤ (pidstatValues l).length)
    (hrun : runPidstat ([hdr] ++ b1 ++ [hdr] ++ b2) {} = .ok st) :
    runPidstat ([hdr] ++ b1 ++ b2) {} = .ok st ∧
    st.data.map Prod.fst = pySplit (String.mk hdr.data.tail) ∧
    (st.data.map Prod.fst).Nodup ∧
    ∀ p ∈ st.data, p.2.length = (b1 ++ b2).length := by
  set K := pySplit (String.mk hdr.data.tail) with hK
  have h0 : pidstatLine {} hdr =
      .ok ⟨K.map (fun k => (k, ([] : List PyVal))), K, true⟩ := by
    rw [pidstatLine_header {} hdr hh, ← hK]
    rw [registerKeys_fresh K [] hnd fun k _ => rfl]
    simp
  have hfst0 : (K.map fun k => (k, ([] : List PyVal))).map Prod.fst = K := by
    rw [List.map_map]
    exact (List.map_congr_left fun k _ => rfl).trans (List.map_id K)
  have hcols0 : ∀ p ∈ (K.map fun k => (k, ([] : List PyVal))), p.1 ∈ K := by
    intro p hp
    rw [List.mem_map] at hp
    obtain ⟨k, hk, rfl⟩ := hp
    exact hk
  obtain ⟨st1, hrun1, hkeys1, hread1, hfst1, hlens1⟩ :=
    runPidstat_values b1 ⟨K.map (fun k => (k, ([] : List PyVal))), K, true⟩
      rfl hnd (fun l hl => hrows l (List.mem_append_left _ hl)) hcols0
  have hkeys1K : st1.keys = K := hkeys1
  have hfst1K : st1.data.map Prod.fst = K := by
    rw [hfst1]
    exact hfst0
  have hhdr2 : pidstatLine st1 hdr = .ok st1 := by
    rw [pidstatLine_header st1 hdr hh, ← hK]
    rw [registerKeys_noop K st1.data fun k hk =>
      any_key_eq_true.mpr (hfst1K ▸ hk)]
    rw [← hkeys1K, ← hread1]
  have hrows2 : ∀ l ∈ b2, l.data ≠ [] ∧ l.data.head? ≠ some '#' ∧
      st1.keys.length ≤ (pidstatValues l).length := by
    intro l hl
    rw [hkeys1K]
    exact hrows l (List.mem_append_right _ hl)
  have hcols2 : ∀ p ∈ st1.data, p.1 ∈ st1.keys := by
    intro p hp
    rw [hkeys1K, ← hfst1K]
    exact List.mem_map_of_mem Prod.fst hp
  obtain ⟨st2, hrun2, hkeys2, hread2, hfst2, hlens2⟩ :=
    runPidstat_values b2 st1 hread1 (hkeys1K ▸ hnd) hrows2 hcols2
  have hfirst : runPidstat ([hdr] ++ b1) {} = .ok st1 := by
    rw [List.singleton_append, runPidstat_cons, h0]
    exact hrun1
  have hfull : runPidstat ([hdr] ++ b1 ++ [hdr] ++ b2) {} = .ok st2 := by
    rw [show [hdr] ++ b1 ++ [hdr] ++ b2 = ([hdr] ++ b1) ++ ([hdr] ++ b2) by
      simp [List.append_assoc]]
    rw [runPidstat_append, hfirst]
    show runPidstat ([hdr] ++ b2) st1 = Except.ok st2
    rw [List.singleton_append, runPidstat_cons, hhdr2]
    exact hrun2
  have hst : st = st2 := by
    have := hrun.symm.trans hfull
    injection this
  subst hst
  have hfstK : st.data.map Prod.fst = K := by
    rw [hfst2, hfst1K]
  refine ⟨?_, hfstK, hfstK ▸ hnd, ?_⟩
  · rw [show [hdr] ++ b1 ++ b2 = ([hdr] ++ b1) ++ b2 by simp [List.append_assoc]]
    rw [runPidstat_append, hfirst]
    exact hrun2
  · intro p hp
    have h2 : (p.1, p.2.length) ∈ st.data.map fun p => (p.1, p.2.length) :=
      List.mem_map_of_mem _ hp
    rw [hlens2, List.mem_map] at h2
    obtain ⟨q, hq, hq2⟩ := h2
    have h1 : (q.1, q.2.length) ∈ st1.data.map fun p => (p.1, p.2.length) :=
      List.mem_map_of_mem _ hq
    rw [hlens1, List.mem_map] at h1
    obtain ⟨r, hr, hr2⟩ := h1
    rw [List.mem_map] at hr
    obtain ⟨k, _, rfl⟩ := hr
    have hrlen : (Prod.snd (k, ([] : List PyVal))).length = 0 := rfl
    have e1 : b1.length = q.2.length := by
      have := congrArg Prod.snd hr2
      simpa using this
    have e2 : q.2.length + b2.length = p.2.length := by
      have := congrArg Prod.snd hq2
      simpa using this
    rw [List.length_append]
    omega

/-- Line-loop state reached by the run used in the C7 witness. -/
def mergedRunState : PidstatState :=
  ⟨[("Time", [.num 10, .num 20, .num 30]), ("RSS", [.num 100, .num 200, .num 300])],
   ["Time", "RSS"], true⟩

/-- Witness for C7 at a concrete sampler file with a repeated header. -/
theorem c7_repeated_header_merged_witness :
    ("# Time RSS".data.head? = some '#') ∧
    (pySplit (String.mk "# Time RSS".data.tail)).Nodup ∧
    (∀ l ∈ ["10 100"] ++ ["20 200", "30 300"], l.data ≠ [] ∧
      l.data.head? ≠ some '#' ∧
      (pySplit (String.mk "# Time RSS".data.tail)).length ≤ (pidstatValues l).length) ∧
    (runPidstat (["# Time RSS"] ++ ["10 100"] ++ ["# Time RSS"] ++
        ["20 200", "30 300"]) {} = .ok mergedRunState) ∧
    (runPidstat (["# Time RSS"] ++ ["10 100"] ++ ["20 200", "30 300"]) {} =
        .ok mergedRunState ∧
      mergedRunState.data.map Prod.fst = pySplit (String.mk "# Time RSS".data.tail) ∧
      (mergedRunState.data.map Prod.fst).Nodup ∧
      ∀ p ∈ mergedRunState.data,
        p.2.length = (["10 100"] ++ ["20 200", "30 300"]).length) :=
  ⟨by decide, by decide, by decide, by decide,
    c7_repeated_header_merged "# Time RSS" ["10 100"] ["20 200", "30 300"]
      mergedRunState (by decide) (by decide) (by decide) (by decide)⟩

/-- Python `pidstat[k]` as used by the plot renderers: `KeyError` when the
column is absent. -/
def requireCol (pidstat : List (String × List PyVal)) (k : String) :
    Except PyError (List PyVal) :=
  match getColumn pidstat k with
  | some v => .ok v
  | none => .error .keyError

/-- `plot_cpu` (lines 197-206), modelled by its data accesses in evaluation
order: `pidstat['Time']` and `pidstat['CPU']`; the matplotlib drawing itself
is an external effect. -/
def plot_cpu (pidstat : List (String × List PyVal)) (_log : SourceXData)
    (_cpu_config : Rat) : Except PyError Unit :=
  match requireCol pidstat "Time" with
  | .error e => .error e
  | .ok _ =>
    match requireCol pidstat "CPU" with
    | .error e => .error e
    | .ok _ => .ok ()

/-- `plot_memory` (lines 209-215): accesses `pidstat['Time']`,
`pidstat['RSS']` and `log['tile-memory-limit']` (a `KeyError` when no
tile-memory-limit line was ever logged). -/
def plot_memory (pidstat : List (String × List PyVal)) (log : SourceXData)
    (_cpu_config : Rat) : Except PyError Unit :=
  match requireCol pidstat "Time" with
  | .error e => .error e
  | .ok _ =>
    match requireCol pidstat "RSS" with
    | .error e => .error e
    | .ok _ =>
      match log.tile_memory_limit with
      | none => .error .keyError
      | some _ => .ok ()

/-- `plot_io` (lines 218-222): accesses `pidstat['Time']` and
`pidstat['kB_rd/s']`. -/
def plot_io (pidstat : List (String × List PyVal)) (_log : SourceXData)
    (_cpu_config : Rat) : Except PyError Unit :=
  match requireCol pidstat "Time" with
  | .error e => .error e
  | .ok _ =>
    match requireCol pidstat "kB_rd/s" with
    | .error e => .error e
    | .ok _ => .ok ()

/-- `plot_sources` (lines 225-233): only reads the always-present series of
the log summary. -/
def plot_sources (_pidstat : List (String × List PyVal)) (_log : SourceXData)
    (_cpu_config : Rat) : Except PyError Unit :=
  .ok ()

/-- `plot_segmented` (lines 236-239): only reads the always-present
segmented series. -/
def plot_segmented (_pidstat : List (String × List PyVal)) (_log : SourceXData)
    (_cpu_config : Rat) : Except PyError Unit :=
  .ok ()

/-- The `__plots` selector dictionary (lines 242-248). -/
def __plots : List (String ×
    (List (String × List PyVal) → SourceXData → Rat → Except PyError Unit)) :=
  [("cpu", plot_cpu), ("memory", plot_memory), ("io", plot_io),
   ("sources", plot_sources), ("segmented", plot_segmented)]

/-- `_pretty_duration` (lines 192-194): `timestamps[1] - timestamps[0]`;
arithmetic on a missing (`None`) endpoint raises `TypeError`. -/
def _pretty_duration (timestamps : Option Rat × Option Rat) :
    Except PyError Rat :=
  match timestamps with
  | (some a, some b) => .ok (b - a)
  | _ => .error .typeError

/-- `plot_perf` (lines 251-298), modelled by its data accesses in
evaluation order: the three milestone span labels (each computing
`_pretty_duration`), the `Finished` marker (`timedelta(seconds=None)` is a
`TypeError`), the left-axis selector lookup `__plots[y_left]` (`KeyError`
when unregistered) and its renderer, then for a truthy `y_right` the right
selector lookup and renderer; a falsy `y_right` leaves `artists_right`
unbound and the legend line raises `NameError`.  Rendering itself is an
external effect. -/
def plot_perf (pidstat : List (String × List PyVal)) (log : SourceXData)
    (cpu_config : Rat) (y_left y_right : String) : Except PyError Unit :=
  match _pretty_duration log.segmentation with
  | .error e => .error e
  | .ok _ =>
    match _pretty_duration log.deblending with
    | .error e => .error e
    | .ok _ =>
      match _pretty_duration log.measurement with
      | .error e => .error e
      | .ok _ =>
        match log.duration with
        | none => .error .typeError
        | some _ =>
          match (__plots.find? fun p => p.1 = y_left).map (fun p => p.2) with
          | none => .error .keyError
          | some f =>
            match f pidstat log cpu_config with
            | .error e => .error e
            | .ok _ =>
              if y_right = "" then .error .nameError
              else
                match (__plots.find? fun p => p.1 = y_right).map (fun p => p.2) with
                | none => .error .keyError
                | some g =>
                  match g pidstat log cpu_config with
                  | .error e => .error e
                  | .ok _ => .ok ()

/-- All milestone fields the `plot_perf` prelude reads are present. -/
def milestonesOk (d : SourceXData) : Bool :=
  d.segmentation.1.isSome && d.segmentation.2.isSome &&
  d.deblending.1.isSome && d.deblending.2.isSome &&
  d.measurement.1.isSome && d.measurement.2.isSome && d.duration.isSome

/-- A selector outside the registered five is not found in `__plots`. -/
theorem plots_find_none {s : String}
    (hs : s ∉ ["cpu", "memory", "io", "sources", "segmented"]) :
    __plots.find? (fun p => p.1 = s) = none := by
  rw [List.find?_eq_none]
  intro p hp
  simp only [__plots, List.mem_cons, List.not_mem_nil, or_false] at hp
  rcases hp with rfl | rfl | rfl | rfl | rfl
  all_goals
    simp only [decide_eq_true_eq]
    intro h
    exact hs (by rw [← h]; decide)

/-- C9: with the milestone fields present, an unregistered left or right
series selector makes `plot_perf` fail with an unknown-key lookup, and the
registered `memory` selector fails likewise when the `RSS` column or the
logged tile-memory-limit is absent. -/
theorem c9_unknown_selector_and_missing_column_fail
    (pidstat : List (String × List PyVal)) (log : SourceXData) (cc : Rat)
    (s r : String)
    (hm : milestonesOk log = true) :
    (s ∉ ["cpu", "memory", "io", "sources", "segmented"] →
      plot_perf pidstat log cc s r = .error .keyError) ∧
    (r ≠ "" → r ∉ ["cpu", "memory", "io", "sources", "segmented"] →
      plot_perf pidstat log cc "segmented" r = .error .keyError) ∧
    (getColumn pidstat "Time" ≠ none → getColumn pidstat "RSS" = none →
      plot_perf pidstat log cc "memory" r = .error .keyError) ∧
    (getColumn pidstat "Time" ≠ none → getColumn pidstat "RSS" ≠ none →
      log.tile_memory_limit = none →
      plot_perf pidstat log cc "memory" r = .error .keyError) := by
  simp only [milestonesOk, Bool.and_eq_true] at hm
  obtain ⟨⟨⟨⟨⟨⟨h1, h2⟩, h3⟩, h4⟩, h5⟩, h6⟩, h7⟩ := hm
  rw [Option.isSome_iff_exists] at h1 h2 h3 h4 h5 h6 h7
  obtain ⟨a1, ha1⟩ := h1
  obtain ⟨a2, ha2⟩ := h2
  obtain ⟨b1, hb1⟩ := h3
  obtain ⟨b2, hb2⟩ := h4
  obtain ⟨m1, hm1⟩ := h5
  obtain ⟨m2, hm2⟩ := h6
  obtain ⟨dd, hdd⟩ := h7
  have hseg : log.segmentation = (some a1, some a2) := Prod.ext ha1 ha2
  have hdeb : log.deblending = (some b1, some b2) := Prod.ext hb1 hb2
  have hmea : log.measurement = (some m1, some m2) := Prod.ext hm1 hm2
  refine ⟨?_, ?_, ?_, ?_⟩
  · intro hs
    simp [plot_perf, hseg, hdeb, hmea, hdd, _pretty_duration, plots_find_none hs]
  · intro hr hrn
    have hfs : (__plots.find? fun p => p.1 = "segmented") =
        some ("segmented", plot_segmented) := rfl
    simp [plot_perf, hseg, hdeb, hmea, hdd, _pretty_duration, hfs,
      plot_segmented, hr, plots_find_none hrn]
  · intro ht hrss
    have hfm : (__plots.find? fun p => p.1 = "memory") =
        some ("memory", plot_memory) := rfl
    obtain ⟨tv, htv⟩ := Option.ne_none_iff_exists'.mp ht
    simp [plot_perf, hseg, hdeb, hmea, hdd, _pretty_duration, hfm,
      plot_memory, requireCol, htv, hrss]
  · intro ht hrss html
    have hfm : (__plots.find? fun p => p.1 = "memory") =
        some ("memory", plot_memory) := rfl
    obtain ⟨tv, htv⟩ := Option.ne_none_iff_exists'.mp ht
    obtain ⟨rv, hrv⟩ := Option.ne_none_iff_exists'.mp hrss
    simp [plot_perf, hseg, hdeb, hmea, hdd, _pretty_duration, hfm,
      plot_memory, requireCol, htv, hrv, html]

/-- A log summary with every milestone field present and no
tile-memory-limit, used by the C9 witness. -/
def milestonesLog : SourceXData :=
  { segmentation := (some 0, some 1), deblending := (some 1, some 2),
    measurement := (some 2, some 3), duration := some 4 }

/-- Witness for C9 at a concrete summary, sampler data, and selectors. -/
theorem c9_unknown_selector_and_missing_column_fail_witness :
    milestonesOk milestonesLog = true ∧
    (("bogus" : String) ∉ ["cpu", "memory", "io", "sources", "segmented"] →
      plot_perf [("Time", [.num 0])] milestonesLog 32 "bogus" "bogus" =
        .error .keyError) ∧
    (("bogus" : String) ≠ "" →
      ("bogus" : String) ∉ ["cpu", "memory", "io", "sources", "segmented"] →
      plot_perf [("Time", [.num 0])] milestonesLog 32 "segmented" "bogus" =
        .error .keyError) ∧
    (getColumn [("Time", [.num 0])] "Time" ≠ none →
      getColumn [("Time", [.num 0])] "RSS" = none →
      plot_perf [("Time", [.num 0])] milestonesLog 32 "memory" "bogus" =
        .error .keyError) ∧
    (getColumn [("Time", [.num 0])] "Time" ≠ none →
      getColumn [("Time", [.num 0])] "RSS" ≠ none →
      milestonesLog.tile_memory_limit = none →
      plot_perf [("Time", [.num 0])] milestonesLog 32 "memory" "bogus" =
        .error .keyError) :=
  ⟨by decide,
    (c9_unknown_selector_and_missing_column_fail [("Time", [.num 0])]
      milestonesLog 32 "bogus" "bogus" (by decide)).1,
    (c9_unknown_selector_and_missing_column_fail [("Time", [.num 0])]
      milestonesLog 32 "bogus" "bogus" (by decide)).2.1,
    (c9_unknown_selector_and_missing_column_fail [("Time", [.num 0])]
      milestonesLog 32 "bogus" "bogus" (by decide)).2.2.1,
    (c9_unknown_selector_and_missing_column_fail [("Time", [.num 0])]
      milestonesLog 32 "bogus" "bogus" (by decide)).2.2.2⟩
